import Mathlib

/-!
Verification development for the adaptive PDF-metadata extraction pipeline.

The Python sources embedded here are:
* `src/src/core/pipeline.py` — `TextPreprocessor.clean_and_segment`,
  `MetadataValidator.validate_metadata`, `PDFMetadataPipeline.process_pdf`;
* `src/src/utils/data_checker.py` — `FeedbackMemory.load_memory`,
  `FeedbackMemory.add_correction`, `FeedbackMemory.update_fine_tuning_preferences`.

Modelling conventions:
* Python strings are Lean `String`s; character classes (`\s`, `\w`, `\d`,
  `str.isupper`, `str.istitle`, `str.lower`) are modelled at ASCII precision.
* Machine-level concerns (logging, the Ollama HTTP call) are abstracted: the
  four LLM extraction calls become an oracle that either returns a string or
  raises (`Except String String`), matching the orchestrator's try/except.
* Python exceptions become `Except`; a `dict` whose top-level keys may be
  missing becomes a structure of `Option` fields; `dict` upserts become
  insertion-order-preserving association-list upserts, matching Python 3
  dict semantics.
-/

namespace OcrPipeline

/-- ASCII model of Python's whitespace class (`str.strip`, regex `\s`):
space, tab, newline, carriage return, vertical tab, form feed. -/
def pyIsSpace (c : Char) : Bool :=
  c == ' ' || c == '\t' || c == '\n' || c == '\r' || c == '\x0b' || c == '\x0c'

/-- ASCII model of the regex word class `\w`: alphanumeric or underscore. -/
def isWordChar (c : Char) : Bool := c.isAlphanum || c == '_'

/-- Python `str.strip()` on a list of characters: drop whitespace from both
ends. -/
def stripChars (l : List Char) : List Char :=
  ((l.dropWhile pyIsSpace).reverse.dropWhile pyIsSpace).reverse

/-- The source's `raw_text.replace("\n\n", "\n")`: left-to-right,
non-overlapping replacement of each `"\n\n"` occurrence by `"\n"`. -/
def replaceNN : List Char → List Char
  | [] => []
  | [c] => [c]
  | c1 :: c2 :: rest =>
    if c1 == '\n' && c2 == '\n' then '\n' :: replaceNN rest
    else c1 :: replaceNN (c2 :: rest)

/-- State-machine core of `re.sub(r'\s+', ' ', text)`: each maximal run of
whitespace is replaced by a single space.  The flag records whether the
previous character was part of a whitespace run. -/
def collapseAux : Bool → List Char → List Char
  | _, [] => []
  | inRun, c :: rest =>
    if pyIsSpace c then
      if inRun then collapseAux true rest else ' ' :: collapseAux true rest
    else c :: collapseAux false rest

/-- The source's `re.sub(r'\s+', ' ', text)` whitespace normalisation. -/
def collapseWs (l : List Char) : List Char := collapseAux false l

/-- Characters kept by `re.sub(r'[^\w\s\.\,\;\:\!\?\-\(\)]', '', text)`. -/
def keepChar (c : Char) : Bool :=
  isWordChar c || pyIsSpace c ||
    c == '.' || c == ',' || c == ';' || c == ':' ||
    c == '!' || c == '?' || c == '-' || c == '(' || c == ')'

/-- The source's OCR-artifact removal: drop every character outside the
word/space/punctuation whitelist. -/
def removeArtifacts (l : List Char) : List Char := l.filter keepChar

/-- Worker for Python `text.split("\n\n")`: accumulate the current piece
(in reverse) and cut at each non-overlapping occurrence of two newlines. -/
def splitNNAux : List Char → List Char → List (List Char)
  | acc, [] => [acc.reverse]
  | acc, [c] => [(c :: acc).reverse]
  | acc, c1 :: c2 :: rest =>
    if c1 == '\n' && c2 == '\n' then acc.reverse :: splitNNAux [] rest
    else splitNNAux (c1 :: acc) (c2 :: rest)

/-- Python `text.split("\n\n")`. -/
def splitNN (l : List Char) : List (List Char) := splitNNAux [] l

/-- A sentence-ending character for the fallback split `re.split(r'[.!?]+', text)`. -/
def isSentencePunct (c : Char) : Bool := c == '.' || c == '!' || c == '?'

/-- Worker for `re.split(r'[.!?]+', text)`.  Mode `some acc` is collecting the
current piece (in reverse); mode `none` is skipping the remainder of a
separator run of `.`/`!`/`?`. -/
def splitPunctAux : Option (List Char) → List Char → List (List Char)
  | some acc, [] => [acc.reverse]
  | none, [] => [[]]
  | some acc, c :: rest =>
    if isSentencePunct c then acc.reverse :: splitPunctAux none rest
    else splitPunctAux (some (c :: acc)) rest
  | none, c :: rest =>
    if isSentencePunct c then splitPunctAux none rest
    else splitPunctAux (some [c]) rest

/-- Python `re.split(r'[.!?]+', text)`. -/
def splitPunct (l : List Char) : List (List Char) := splitPunctAux (some []) l

/-- The cleaning passes of `clean_and_segment`: strip, replace `"\n\n"` by
`"\n"`, collapse whitespace runs, remove OCR artifacts. -/
def cleanedText (raw : String) : List Char :=
  removeArtifacts (collapseWs (replaceNN (stripChars raw.data)))

/-- Paragraph candidates: `[p.strip() for p in text.split("\n\n") if
len(p.strip()) > 20]`. -/
def paraSegments (raw : String) : List (List Char) :=
  ((splitNN (cleanedText raw)).map stripChars).filter
    (fun q => decide (20 < q.length))

/-- Sentence-split fallback candidates: `[s.strip() for s in
re.split(r'[.!?]+', text) if len(s.strip()) > 20]`. -/
def sentenceSegments (raw : String) : List (List Char) :=
  ((splitPunct (cleanedText raw)).map stripChars).filter
    (fun q => decide (20 < q.length))

/-- Model of `TextPreprocessor.clean_and_segment`, body of the `try` block,
before the final `[:10]` truncation: clean the text, split on `"\n\n"`
keeping stripped fragments longer than 20 characters, and if none survive
fall back to splitting on sentence punctuation with the same length
filter. -/
def segment_core (raw : String) : List (List Char) :=
  if (paraSegments raw).isEmpty then sentenceSegments raw
  else paraSegments raw

/-- Model of `TextPreprocessor.clean_and_segment`, non-exception path: the cleaned
segments truncated to the first 10 (`return segments[:10]`). -/
def clean_and_segment (raw : String) : List String :=
  ((segment_core raw).take 10).map (fun q => ⟨q⟩)

/-- Model of `TextPreprocessor.clean_and_segment`, `except` branch: on any processing
failure the function returns `[raw_text[:1000]]`, the first 1000 characters of
the untouched input, as a single-element list.  (For actual `str` inputs the
`try` body is total, so this path is modelled as a separate function.) -/
def segment_fallback (raw : String) : List String := [⟨raw.data.take 1000⟩]

/-! Validator (`MetadataValidator.validate_metadata`). -/

/-- Container mirroring the `PipelineResult` dataclass.  The `data` dict is an
insertion-ordered association list from field name to value. -/
structure PipelineResult where
  data : List (String × String)
  warnings : List String
  success : Bool
  stage : String
deriving DecidableEq

/-- One step of `re.search(r'\b(19|20)\d{2}\b', pub_date)`: does a match start
at the head of `l`, given the character just before `l` (`none` at the start
of the string)?  The leading `\b` holds when the previous character is absent
or not a word character; the trailing `\b` when the following character is
absent or not a word character. -/
def yearMatchAt (prev : Option Char) (l : List Char) : Bool :=
  match l with
  | c1 :: c2 :: c3 :: c4 :: rest =>
    ((c1 == '1' && c2 == '9') || (c1 == '2' && c2 == '0')) &&
    c3.isDigit && c4.isDigit &&
    (match prev with | none => true | some q => !isWordChar q) &&
    (match rest with | [] => true | r :: _ => !isWordChar r)
  | _ => false

/-- Scan of `re.search(r'\b(19|20)\d{2}\b', ...)`: try a match at every
position, tracking the preceding character for the word-boundary test. -/
def searchYearAux (prev : Option Char) : List Char → Bool
  | [] => false
  | c :: rest => yearMatchAt prev (c :: rest) || searchYearAux (some c) rest

/-- Truthiness of `re.search(r'\b(19|20)\d{2}\b', s)`. -/
def hasYearWB (s : String) : Bool := searchYearAux none s.data

/-- Modelled from the spec: the spec's words "contains a 4-digit substring
beginning with 19 or 20", with no word-boundary requirement — does a run of
four digit characters whose first two are `19` or `20` start at the head of
`l`?  Used only to compare the spec's date rule with the source's
word-boundary-anchored regex. -/
def specYearSubAt (l : List Char) : Bool :=
  match l with
  | c1 :: c2 :: c3 :: c4 :: _ =>
    ((c1 == '1' && c2 == '9') || (c1 == '2' && c2 == '0')) &&
    c3.isDigit && c4.isDigit
  | _ => false

/-- Modelled from the spec: `s` contains a 4-digit substring beginning with
`19` or `20` (the spec's reading of the date check, without the regex's `\b`
anchors). -/
def specHasYearSub : List Char → Bool
  | [] => false
  | c :: rest => specYearSubAt (c :: rest) || specHasYearSub rest

/-- The exact warning emitted by the date-format check. -/
def dateWarnMsg : String := "Date format unexpected - no 4-digit year found"

/-- Title checks of `validate_metadata`: `if not title or len(title) < 3`
then a missing/short warning, `elif len(title) > 200` then a long warning. -/
def titleWarnings (title : String) : List String :=
  if title = "" ∨ title.length < 3 then ["Title missing or too short"]
  else if 200 < title.length then ["Title unusually long - may be incorrect"]
  else []

/-- Date check of `validate_metadata`: `if pub_date and not
re.search(r'\b(19|20)\d{2}\b', pub_date)` then the date warning. -/
def dateWarnings (pub_date : String) : List String :=
  if pub_date ≠ "" ∧ hasYearWB pub_date = false then [dateWarnMsg] else []

/-- Description checks of `validate_metadata`: missing/short below 10
characters, unusually long above 1000. -/
def descWarnings (description : String) : List String :=
  if description = "" ∨ description.length < 10 then
    ["Description missing or too short"]
  else if 1000 < description.length then
    ["Description unusually long - may include extra content"]
  else []

/-- Model of `MetadataValidator.validate_metadata`.  The closing `jsonschema.validate`
call checks that the assembled dict carries `title` and `description` as
strings; the dict built here always does (all four values are strings), so
that call never raises `ValidationError` and contributes no warning. -/
def validate_metadata (title pub_date description volume_issue : String) :
    PipelineResult :=
  let warnings :=
    titleWarnings title ++ dateWarnings pub_date ++ descWarnings description
  { data := [("title", title), ("pub_date", pub_date),
             ("description", description), ("volume_issue", volume_issue)],
    warnings := warnings,
    success := warnings.isEmpty,
    stage := "validation" }

/-! Orchestrator (`PDFMetadataPipeline.process_pdf`). -/

/-- The four LLM extraction operations of `MetadataExtractor`, abstracted as
an oracle: each call consumes the segment list (and, for the date, the
optional target date range) and either returns the extracted string or raises
with a message.  Prompt construction and the HTTP transport live behind this
boundary and do not affect the orchestrator's control flow. -/
structure Extractors where
  extract_title : List String → Except String String
  extract_date : List String → Option String → Except String String
  extract_description : List String → Except String String
  extract_volume_issue : List String → Except String String

/-- The body of `process_pdf`'s `try` block: preprocess, short-circuit with a
`preprocessing`-stage failure when no segments survive, run the four
extractions in order, validate.  An `Except.error` is an uncaught Python
exception escaping the sequence. -/
def processBody (ex : Extractors) (pdf_text : String) (tgt : Option String) :
    Except String PipelineResult :=
  let segments := clean_and_segment pdf_text
  if segments.isEmpty then
    Except.ok { data := [],
                warnings := ["No text segments found after preprocessing"],
                success := false, stage := "preprocessing" }
  else
    (ex.extract_title segments).bind fun title =>
    (ex.extract_date segments tgt).bind fun pub_date =>
    (ex.extract_description segments).bind fun description =>
    (ex.extract_volume_issue segments).map fun volume_issue =>
    validate_metadata title pub_date description volume_issue

/-- Model of `PDFMetadataPipeline.process_pdf`: the `try` body, with the `except`
clause converting any uncaught exception into a `pipeline`-stage failure
result carrying `f"Pipeline error: {str(e)}"` as its only warning. -/
def process_pdf (ex : Extractors) (pdf_text : String) (tgt : Option String) :
    PipelineResult :=
  match processBody ex pdf_text tgt with
  | Except.ok r => r
  | Except.error e =>
    { data := [], warnings := ["Pipeline error: " ++ e],
      success := false, stage := "pipeline" }

/-! Feedback store (`FeedbackMemory` in `src/src/utils/data_checker.py`). -/

/-- A cased character at ASCII precision (Python's cased characters are
letters). -/
def isCased (c : Char) : Bool := c.isAlpha

/-- Python `str.isupper()`: at least one cased character and every cased
character uppercase (ASCII model). -/
def pyIsUpper (s : String) : Bool :=
  s.data.any isCased && s.data.all (fun c => !isCased c || c.isUpper)

/-- Scanner for Python `str.istitle()`: the flag records whether the previous
character was cased.  A cased character after an uncased one (or at the
start) must be uppercase; a cased character after a cased one must be
lowercase. -/
def istitleAux : Bool → List Char → Bool
  | _, [] => true
  | prevCased, c :: rest =>
    if isCased c then
      (if prevCased then c.isLower else c.isUpper) && istitleAux true rest
    else istitleAux false rest

/-- Python `str.istitle()`: titlecased with at least one cased character
(ASCII model). -/
def pyIsTitle (s : String) : Bool := s.data.any isCased && istitleAux false s.data

/-- Does `needle` occur at the head of `hay`? -/
def beginsWithSeq : List Char → List Char → Bool
  | [], _ => true
  | _ :: _, [] => false
  | a :: as, b :: bs => a == b && beginsWithSeq as bs

/-- Worker for Python's substring test `needle in hay`. -/
def containsSeqAux (nd : List Char) : List Char → Bool
  | [] => beginsWithSeq nd []
  | c :: rest => beginsWithSeq nd (c :: rest) || containsSeqAux nd rest

/-- Python's substring containment `needle in hay` (case-sensitive). -/
def containsSeq (needle hay : String) : Bool := containsSeqAux needle.data hay.data

/-- Python `str.lower()` at ASCII precision. -/
def pyLower (s : String) : String := ⟨s.data.map Char.toLower⟩

/-- One entry of the `corrections` list appended by `add_correction`. -/
structure Correction where
  filename : String
  field : String
  original : String
  corrected : String
  context : String
  timestamp : String
deriving DecidableEq

/-- The `user_preferences` sub-dict, with the five keys of the default shape
(sub-dicts are modelled at the default shape; only top-level keys of the
persisted file are modelled as possibly missing). -/
structure UserPreferences where
  description_style : String
  description_examples : List String
  title_format : String
  date_format : String
  volume_format : String
deriving DecidableEq

/-- The `fine_tuning_prompts` sub-dict (present in the default shape,
currently unused). -/
structure FineTuningPrompts where
  title : String
  date : String
  description : String
  volume_issue : String
deriving DecidableEq

/-- The patterns table: field name to an insertion-ordered map from pattern
key to corrected value. -/
def PatternTable : Type := List (String × List (String × String))

instance : DecidableEq PatternTable := by
  unfold PatternTable
  infer_instance

/-- The parsed JSON object stored in `feedback_memory.json`.  Each top-level
key is an `Option`: `json.load` returns whatever object was stored, so any of
the five keys of the default shape may be absent. -/
structure MemoryJson where
  corrections : Option (List Correction)
  patterns : Option PatternTable
  user_preferences : Option UserPreferences
  fine_tuning_prompts : Option FineTuningPrompts
  last_updated : Option (Option String)
deriving DecidableEq

/-- The empty `user_preferences` shape of `load_memory`'s default. -/
def defaultPreferences : UserPreferences :=
  { description_style := "", description_examples := [],
    title_format := "", date_format := "", volume_format := "" }

/-- The full default `FeedbackMemory` shape built by `load_memory` when the
file is absent or unreadable. -/
def defaultMemory : MemoryJson :=
  { corrections := some [],
    patterns := some ([] : PatternTable),
    user_preferences := some defaultPreferences,
    fine_tuning_prompts := some ⟨"", "", "", ""⟩,
    last_updated := some none }

/-- Model of `FeedbackMemory.load_memory`.  The backing store is `none` when the file
does not exist, `some (Except.error ())` when opening or JSON-parsing raises
(the bare `except: pass` swallows it), and `some (Except.ok m)` when the file
parses, in which case the parsed object is returned exactly as stored. -/
def load_memory (store : Option (Except Unit MemoryJson)) : MemoryJson :=
  match store with
  | some (Except.ok m) => m
  | _ => defaultMemory

/-- The pattern key of `add_correction`:
`original_value.lower()[:50] if original_value else "empty"`. -/
def pattern_key (original : String) : String :=
  if original = "" then "empty" else ⟨(pyLower original).data.take 50⟩

/-- Insertion-order-preserving upsert on an association list, matching a
Python dict assignment `d[k] = v`: an existing key keeps its position, a new
key is appended at the end. -/
def upsertA {α : Type} (k : String) (v : α) : List (String × α) → List (String × α)
  | [] => [(k, v)]
  | (k', v') :: rest => if k' = k then (k, v) :: rest else (k', v') :: upsertA k v rest

/-- Association-list lookup, matching Python `d[k]` / `k in d`. -/
def lookupA {α : Type} (k : String) : List (String × α) → Option α
  | [] => none
  | (k', v) :: rest => if k' = k then some v else lookupA k rest

/-- The patterns update of `add_correction`: create `patterns[field]` as an
empty dict when absent, then set `patterns[field][pattern_key] = corrected`. -/
def upsertPattern (field key corrected : String) (pats : PatternTable) :
    PatternTable :=
  upsertA field (upsertA key corrected ((lookupA field pats).getD [])) pats

/-- Model of `FeedbackMemory.update_fine_tuning_preferences`: the deterministic rules
deriving preferences from a correction, applied to a present
`user_preferences` dict. -/
def update_fine_tuning_preferences (field original corrected : String)
    (p : UserPreferences) : UserPreferences :=
  if field = "description" then
    -- The source mutates two keys of the same dict in sequence: the style
    -- rules touch only `description_style`, the example rules only
    -- `description_examples`, so the two sequential updates are one record
    -- update.
    { p with
      description_style :=
        if corrected.length < 50 then "Keep descriptions brief and concise"
        else if 200 < corrected.length then
          "Provide detailed comprehensive descriptions"
        else p.description_style,
      description_examples :=
        if corrected ∈ p.description_examples then p.description_examples
        else
          let ex := p.description_examples ++ [corrected]
          if 5 < ex.length then ex.drop 1 else ex }
  else if field = "title" then
    if pyIsUpper corrected then { p with title_format := "Prefer uppercase titles" }
    else if pyIsTitle corrected then { p with title_format := "Prefer title case" }
    else p
  else if field = "volume_issue" then
    if containsSeq "Volume" corrected && containsSeq "Issue" corrected then
      { p with volume_format := "Use \x27Volume X, Issue Y\x27 format" }
    else if containsSeq "Vol." corrected && containsSeq "No." corrected then
      { p with volume_format := "Use \x27Vol. X, No. Y\x27 format" }
    else p
  else p

/-- Does `update_fine_tuning_preferences` dereference
`feedback_data["user_preferences"]` for this `(field, corrected)` pair?  The
description branch reads `description_examples` unconditionally; the title
and volume branches touch the dict only when one of their rules fires. -/
def touchesPreferences (field corrected : String) : Bool :=
  field == "description" ||
  (field == "title" && (pyIsUpper corrected || pyIsTitle corrected)) ||
  (field == "volume_issue" &&
    ((containsSeq "Volume" corrected && containsSeq "Issue" corrected) ||
     (containsSeq "Vol." corrected && containsSeq "No." corrected)))

/-- Model of `FeedbackMemory.add_correction`: append a `Correction`, upsert the
patterns table, re-derive preferences, and persist (`save_memory` refreshes
`last_updated` with the current timestamp, passed here as `ts`).  A missing
top-level key raises `KeyError` at its first dict access, modelled as
`Except.error`; the post-exception partial state is not tracked. -/
def add_correction (m : MemoryJson)
    (filename field original corrected context ts : String) :
    Except String MemoryJson :=
  match m.corrections with
  | none => Except.error "KeyError: corrections"
  | some cs =>
    match m.patterns with
    | none => Except.error "KeyError: patterns"
    | some pats =>
      let cs' := cs ++ [⟨filename, field, original, corrected, context, ts⟩]
      let pats' := upsertPattern field (pattern_key original) corrected pats
      match m.user_preferences with
      | some p =>
        Except.ok { corrections := some cs', patterns := some pats',
                    user_preferences :=
                      some (update_fine_tuning_preferences field original corrected p),
                    fine_tuning_prompts := m.fine_tuning_prompts,
                    last_updated := some (some ts) }
      | none =>
        if touchesPreferences field corrected then
          Except.error "KeyError: user_preferences"
        else
          Except.ok { corrections := some cs', patterns := some pats',
                      user_preferences := none,
                      fine_tuning_prompts := m.fine_tuning_prompts,
                      last_updated := some (some ts) }

end OcrPipeline

deriving instance DecidableEq for Except

namespace OcrPipeline

/-! Helper lemmas. -/

theorem exceptBindOk {α β : Type} (a : α) (f : α → Except String β) :
    (Except.ok a : Except String α).bind f = f a := rfl

theorem exceptBindErr {α β : Type} (e : String) (f : α → Except String β) :
    (Except.error e : Except String α).bind f = Except.error e := rfl

theorem exceptMapOk {α β : Type} (a : α) (f : α → β) :
    (Except.ok a : Except String α).map f = Except.ok (f a) := rfl

theorem exceptMapErr {α β : Type} (e : String) (f : α → β) :
    (Except.error e : Except String α).map f = Except.error e := rfl

theorem validate_warnings_eq (t d ds v : String) :
    (validate_metadata t d ds v).warnings =
      titleWarnings t ++ dateWarnings d ++ descWarnings ds := rfl

theorem dateWarnMsg_not_mem_titleWarnings (t : String) :
    dateWarnMsg ∉ titleWarnings t := by
  unfold titleWarnings
  split
  · decide
  · split
    · decide
    · decide

theorem dateWarnMsg_not_mem_descWarnings (ds : String) :
    dateWarnMsg ∉ descWarnings ds := by
  unfold descWarnings
  split
  · decide
  · split
    · decide
    · decide

theorem dateWarnMsg_mem_dateWarnings (d : String) :
    dateWarnMsg ∈ dateWarnings d ↔ d ≠ "" ∧ hasYearWB d = false := by
  unfold dateWarnings
  split
  · next h => simpa using h
  · next h => simpa using h

/-! Claim C3. -/

/-- C3 (counterexample): the claim reads the date check as "no 4-digit
substring beginning with 19 or 20", ignoring the `\b` anchors of the source
regex `\b(19|20)\d{2}\b`.  At `pub_date = "19790"` the string does contain
the 4-digit substring `1979`, so the claim predicts no warning, but the
regex finds no word-boundary-delimited match (the year is followed by the
word character `0`) and the code appends the warning. -/
theorem date_warning_substring_counterexample :
    ¬ ((dateWarnMsg ∈ (validate_metadata "Good Title" "19790"
          "a description ok" "").warnings) ↔
       ("19790" ≠ "" ∧ specHasYearSub ("19790" : String).data = false)) := by
  decide

/-- C3 (amended): a date warning is appended iff `pub_date` is non-empty and
contains no word-boundary-delimited 4-digit substring beginning with 19 or 20
(the regex `\b(19|20)\d{2}\b` fails); `"June 1979"` yields no date warning
and `"no year here"` yields one. -/
theorem date_warning_iff_boundary_year :
    (∀ t d ds v, dateWarnMsg ∈ (validate_metadata t d ds v).warnings ↔
      d ≠ "" ∧ hasYearWB d = false)
    ∧ dateWarnMsg ∉ (validate_metadata "Some Title" "June 1979"
        "a sufficiently long description" "v").warnings
    ∧ dateWarnMsg ∈ (validate_metadata "Some Title" "no year here"
        "a sufficiently long description" "v").warnings := by
  refine ⟨?_, by decide, by decide⟩
  intro t d ds v
  rw [validate_warnings_eq]
  simp only [List.mem_append]
  constructor
  · rintro ((h | h) | h)
    · exact absurd h (dateWarnMsg_not_mem_titleWarnings t)
    · exact (dateWarnMsg_mem_dateWarnings d).mp h
    · exact absurd h (dateWarnMsg_not_mem_descWarnings ds)
  · intro h
    exact Or.inl (Or.inr ((dateWarnMsg_mem_dateWarnings d).mpr h))

/-- C3 (witness): at `pub_date = "no date"` the right-hand side of the
amended iff holds and the warning is present. -/
theorem date_warning_iff_boundary_year_witness :
    (("no date" : String) ≠ "" ∧ hasYearWB "no date" = false)
    ∧ dateWarnMsg ∈ (validate_metadata "Some Title" "no date"
        "a sufficiently long description" "v").warnings :=
  ⟨⟨by decide, by decide⟩,
   (date_warning_iff_boundary_year.1 "Some Title" "no date"
     "a sufficiently long description" "v").mpr ⟨by decide, by decide⟩⟩

/-! Claim C1. -/

/-- C1: `process_pdf` is total (it is a Lean function into `PipelineResult`,
so it never raises), and whenever the segment/extract/validate sequence
raises an uncaught exception with message `e`, the returned result has stage
`pipeline`, `success = false`, and exactly the one warning
`"Pipeline error: " ++ e`. -/
theorem pipeline_error_conversion (ex : Extractors) (text : String)
    (tgt : Option String) (e : String)
    (h : processBody ex text tgt = Except.error e) :
    process_pdf ex text tgt =
      { data := [], warnings := ["Pipeline error: " ++ e],
        success := false, stage := "pipeline" } := by
  unfold process_pdf
  rw [h]

/-- An extraction oracle whose title call raises with message `boom`. -/
def exBoom : Extractors :=
  { extract_title := fun _ => Except.error "boom",
    extract_date := fun _ _ => Except.ok "",
    extract_description := fun _ => Except.ok "",
    extract_volume_issue := fun _ => Except.ok "" }

/-- C1 (witness): on a text with a surviving segment and a raising title
extraction, the hypothesis of `pipeline_error_conversion` holds and the
orchestrator returns the `pipeline`-stage single-warning failure result. -/
theorem pipeline_error_conversion_witness :
    processBody exBoom "abcdefghijklmnopqrstuvwxyz" none = Except.error "boom"
    ∧ process_pdf exBoom "abcdefghijklmnopqrstuvwxyz" none =
      { data := [], warnings := ["Pipeline error: " ++ "boom"],
        success := false, stage := "pipeline" } :=
  ⟨rfl, pipeline_error_conversion exBoom "abcdefghijklmnopqrstuvwxyz" none "boom" rfl⟩

/-! Claim C4. -/

theorem processBody_ok_shape (ex : Extractors) (text : String)
    (tgt : Option String) (r : PipelineResult)
    (h : processBody ex text tgt = Except.ok r) :
    r = { data := [], warnings := ["No text segments found after preprocessing"],
          success := false, stage := "preprocessing" }
    ∨ ∃ t d ds v, r = validate_metadata t d ds v := by
  simp only [processBody] at h
  split at h
  · injection h with h
    exact Or.inl h.symm
  · cases h1 : ex.extract_title (clean_and_segment text) with
    | error e =>
      rw [h1, exceptBindErr] at h
      exact Except.noConfusion h
    | ok t =>
      rw [h1, exceptBindOk] at h
      cases h2 : ex.extract_date (clean_and_segment text) tgt with
      | error e =>
        rw [h2, exceptBindErr] at h
        exact Except.noConfusion h
      | ok d =>
        rw [h2, exceptBindOk] at h
        cases h3 : ex.extract_description (clean_and_segment text) with
        | error e =>
          rw [h3, exceptBindErr] at h
          exact Except.noConfusion h
        | ok ds =>
          rw [h3, exceptBindOk] at h
          cases h4 : ex.extract_volume_issue (clean_and_segment text) with
          | error e =>
            rw [h4, exceptMapErr] at h
            exact Except.noConfusion h
          | ok v =>
            rw [h4, exceptMapOk] at h
            injection h with h
            exact Or.inr ⟨t, d, ds, v, h.symm⟩

/-- C4 (amended): every `PipelineResult` returned by `process_pdf` either
comes from the validation stage, in which case its `data` carries exactly the
four keys `title`, `pub_date`, `description`, `volume_issue`, or is the
preprocessing short-circuit or pipeline-stage failure result, whose `data` is
the empty mapping. -/
theorem result_data_keys_by_stage (ex : Extractors) (text : String)
    (tgt : Option String) :
    ((process_pdf ex text tgt).stage = "validation"
      ∧ (process_pdf ex text tgt).data.map Prod.fst =
          ["title", "pub_date", "description", "volume_issue"])
    ∨ (((process_pdf ex text tgt).stage = "preprocessing"
         ∨ (process_pdf ex text tgt).stage = "pipeline")
       ∧ (process_pdf ex text tgt).data = []) := by
  unfold process_pdf
  cases hb : processBody ex text tgt with
  | error e => exact Or.inr ⟨Or.inr rfl, rfl⟩
  | ok r =>
    rcases processBody_ok_shape ex text tgt r hb with h | ⟨t, d, ds, v, h⟩
    · subst h
      exact Or.inr ⟨Or.inl rfl, rfl⟩
    · subst h
      exact Or.inl ⟨rfl, rfl⟩

/-- An extraction oracle that always succeeds with the empty string. -/
def exOkEmpty : Extractors :=
  { extract_title := fun _ => Except.ok "",
    extract_date := fun _ _ => Except.ok "",
    extract_description := fun _ => Except.ok "",
    extract_volume_issue := fun _ => Except.ok "" }

/-- C4 (counterexample): on input `"hi"` the preprocessing short-circuit
fires and the returned result's `data` is the empty mapping — it does not
contain the key `title` (nor any other), contradicting the claim that every
returned result carries all four keys. -/
theorem result_data_keys_counterexample :
    (process_pdf exOkEmpty "hi" none).stage = "preprocessing"
    ∧ (process_pdf exOkEmpty "hi" none).data = []
    ∧ "title" ∉ (process_pdf exOkEmpty "hi" none).data.map Prod.fst := by
  refine ⟨rfl, rfl, ?_⟩
  decide

/-! Claim C5. -/

/-- C5 (amended): `load_memory` returns the full default `FeedbackMemory`
shape when storage is absent or unreadable, but a stored JSON object that
parses is returned exactly as stored, with no per-key defaulting of absent
top-level keys. -/
theorem load_memory_default_amended :
    load_memory none = defaultMemory
    ∧ load_memory (some (Except.error ())) = defaultMemory
    ∧ (∀ m : MemoryJson, load_memory (some (Except.ok m)) = m) :=
  ⟨rfl, rfl, fun _ => rfl⟩

/-- C5 (counterexample): a stored object that parses but lacks the top-level
`patterns` key is returned by `load_memory` with the key still absent, and a
subsequent `add_correction` raises `KeyError` instead of succeeding —
refuting the claim that absent keys default per key so that `add_correction`
still succeeds. -/
theorem load_memory_no_key_default_counterexample :
    (load_memory (some (Except.ok
        ⟨some [], none, some defaultPreferences, some ⟨"", "", "", ""⟩,
         some none⟩))).patterns = none
    ∧ add_correction
        (load_memory (some (Except.ok
          ⟨some [], none, some defaultPreferences, some ⟨"", "", "", ""⟩,
           some none⟩)))
        "doc.pdf" "title" "orig" "Corrected Title" "ctx" "t0"
      = Except.error "KeyError: patterns" :=
  ⟨rfl, rfl⟩

/-! Claim C6. -/

/-- C6 (counterexample): two title-correction histories that both end with
the corrected value `"hello world"` (which is neither uppercase nor
title-case, so no inference rule fires) leave different `title_format`
preferences: the history that first corrected to `"HELLO"` keeps
`"Prefer uppercase titles"`, the one-step history keeps the empty default —
so the preference is not a function of the latest corrected value alone. -/
theorem preference_latest_value_counterexample :
    ((add_correction defaultMemory "f.pdf" "title" "a" "HELLO" "" "t1").bind
      (fun m => add_correction m "f.pdf" "title" "b" "hello world" "" "t2")).map
        MemoryJson.user_preferences
    ≠ (add_correction defaultMemory "f.pdf" "title" "b" "hello world" "" "t1").map
        MemoryJson.user_preferences := by
  decide

/-- C6 (amended): the preference field is a function of the latest corrected
value alone whenever that value triggers an inference rule (title: uppercase
or title-case; description: length below 50 or above 200; volume/issue: the
"Volume/Issue" or "Vol./No." markers); otherwise the field keeps its prior
value and thus depends on history. -/
theorem preference_latest_value_amended (p₁ p₂ : UserPreferences)
    (o₁ o₂ c : String) :
    ((pyIsUpper c = true ∨ pyIsTitle c = true) →
      (update_fine_tuning_preferences "title" o₁ c p₁).title_format =
      (update_fine_tuning_preferences "title" o₂ c p₂).title_format)
    ∧ ((c.length < 50 ∨ 200 < c.length) →
      (update_fine_tuning_preferences "description" o₁ c p₁).description_style =
      (update_fine_tuning_preferences "description" o₂ c p₂).description_style)
    ∧ (((containsSeq "Volume" c && containsSeq "Issue" c) = true ∨
        (containsSeq "Vol." c && containsSeq "No." c) = true) →
      (update_fine_tuning_preferences "volume_issue" o₁ c p₁).volume_format =
      (update_fine_tuning_preferences "volume_issue" o₂ c p₂).volume_format) := by
  refine ⟨?_, ?_, ?_⟩
  · intro h
    unfold update_fine_tuning_preferences
    rw [if_neg (by decide : ¬("title" : String) = "description"),
        if_pos rfl, if_neg (by decide : ¬("title" : String) = "description"),
        if_pos rfl]
    rcases h with h | h
    · simp [h]
    · by_cases hu : pyIsUpper c
      · simp [hu]
      · simp [hu, h]
  · intro h
    unfold update_fine_tuning_preferences
    rw [if_pos rfl, if_pos rfl]
    rcases h with h | h
    · simp [h]
    · have h50 : ¬(c.length < 50) := by omega
      simp [h50, h]
  · intro h
    unfold update_fine_tuning_preferences
    rw [if_neg (by decide : ¬("volume_issue" : String) = "description"),
        if_neg (by decide : ¬("volume_issue" : String) = "title"),
        if_pos rfl,
        if_neg (by decide : ¬("volume_issue" : String) = "description"),
        if_neg (by decide : ¬("volume_issue" : String) = "title"),
        if_pos rfl]
    rcases h with h | h
    · simp [h]
    · by_cases hv : (containsSeq "Volume" c && containsSeq "Issue" c) = true
      · simp [hv]
      · simp [hv, h]

/-- C6 (witness): at the rule-triggering corrected value `"HELLO"`, any two
preference states get the same `title_format` after the correction. -/
theorem preference_latest_value_witness :
    (pyIsUpper "HELLO" = true ∨ pyIsTitle "HELLO" = true)
    ∧ (update_fine_tuning_preferences "title" "x" "HELLO"
        defaultPreferences).title_format =
      (update_fine_tuning_preferences "title" "y" "HELLO"
        ⟨"s", ["e"], "old", "d", "v"⟩).title_format :=
  ⟨Or.inl (by decide),
   (preference_latest_value_amended defaultPreferences
     ⟨"s", ["e"], "old", "d", "v"⟩ "x" "y" "HELLO").1 (Or.inl (by decide))⟩

/-! Claim C7. -/

theorem lookupA_upsertA {α : Type} (k : String) (v : α)
    (l : List (String × α)) : lookupA k (upsertA k v l) = some v := by
  induction l with
  | nil => simp [upsertA, lookupA]
  | cons h rest ih =>
    obtain ⟨k', v'⟩ := h
    by_cases hk : k' = k
    · simp [upsertA, lookupA, hk]
    · simp [upsertA, lookupA, hk, ih]

theorem upsertA_upsertA {α : Type} (k : String) (v v' : α)
    (l : List (String × α)) :
    upsertA k v' (upsertA k v l) = upsertA k v' l := by
  induction l with
  | nil => simp [upsertA]
  | cons h rest ih =>
    obtain ⟨k'', v''⟩ := h
    by_cases hk : k'' = k
    · simp [upsertA, hk]
    · simp [upsertA, hk, ih]

theorem upsertPattern_idem (f k c : String) (pats : PatternTable) :
    upsertPattern f k c (upsertPattern f k c pats) =
      upsertPattern f k c pats := by
  unfold upsertPattern
  rw [lookupA_upsertA, Option.getD_some, upsertA_upsertA, upsertA_upsertA]

/-- C7: `add_correction` is idempotent on the patterns table — running the
same `(field, original, corrected)` correction a second time (from whatever
state the first run produced, including the error cases) leaves the stored
patterns mapping exactly as after the first run. -/
theorem add_correction_idem_patterns (m : MemoryJson)
    (fn fld o c ctx ts ts' : String) :
    ((add_correction m fn fld o c ctx ts).bind
      (fun m1 => add_correction m1 fn fld o c ctx ts')).map MemoryJson.patterns
    = (add_correction m fn fld o c ctx ts).map MemoryJson.patterns := by
  cases hc : m.corrections with
  | none =>
    simp only [add_correction, hc, exceptBindErr, exceptMapErr]
  | some cs =>
    cases hp : m.patterns with
    | none =>
      simp only [add_correction, hc, hp, exceptBindErr, exceptMapErr]
    | some pats =>
      cases hu : m.user_preferences with
      | some p =>
        simp only [add_correction, hc, hp, hu, exceptBindOk, exceptMapOk]
        rw [upsertPattern_idem]
      | none =>
        cases ht : touchesPreferences fld c with
        | true =>
          simp only [add_correction, hc, hp, hu, ht, if_true, ite_true,
            exceptBindErr, exceptMapErr]
        | false =>
          simp only [add_correction, hc, hp, hu, ht, Bool.false_eq_true,
            if_false, ite_false, exceptBindOk, exceptMapOk]
          rw [upsertPattern_idem]

/-! Claim C8. -/

/-- C8: starting from preferences whose `description_examples` has at most 5
entries, any correction keeps the list at no more than 5 entries; on a
description correction the corrected value is appended only when not already
present, with the first (oldest) entry dropped when the size would exceed 5,
and corrections to other fields leave the list untouched. -/
theorem description_examples_bound (p : UserPreferences) (fld o c : String)
    (h5 : p.description_examples.length ≤ 5) :
    (update_fine_tuning_preferences fld o c p).description_examples.length ≤ 5
    ∧ (fld = "description" →
        ((c ∈ p.description_examples →
          (update_fine_tuning_preferences fld o c p).description_examples =
            p.description_examples)
         ∧ (c ∉ p.description_examples →
          (update_fine_tuning_preferences fld o c p).description_examples =
            (if 5 < (p.description_examples ++ [c]).length
             then (p.description_examples ++ [c]).drop 1
             else p.description_examples ++ [c]))))
    ∧ (fld ≠ "description" →
        (update_fine_tuning_preferences fld o c p).description_examples =
          p.description_examples) := by
  by_cases hf : fld = "description"
  · subst hf
    refine ⟨?_, fun _ => ⟨fun hm => ?_, fun hm => ?_⟩, fun hne => absurd rfl hne⟩
    · unfold update_fine_tuning_preferences
      rw [if_pos rfl]
      by_cases hm : c ∈ p.description_examples
      · simpa [hm] using h5
      · simp only [hm, if_neg, ite_false]
        split
        · next hlen =>
          rw [List.length_drop]
          simp only [List.length_append, List.length_cons,
            List.length_nil] at hlen ⊢
          omega
        · next hlen =>
          simp only [List.length_append, List.length_cons,
            List.length_nil] at hlen ⊢
          omega
    · unfold update_fine_tuning_preferences
      rw [if_pos rfl]
      simp [hm]
    · unfold update_fine_tuning_preferences
      rw [if_pos rfl]
      simp [hm]
  · have hunch :
        (update_fine_tuning_preferences fld o c p).description_examples =
          p.description_examples := by
      unfold update_fine_tuning_preferences
      rw [if_neg hf]
      split
      · split
        · rfl
        · split
          · rfl
          · rfl
      · split
        · split
          · rfl
          · split
            · rfl
            · rfl
        · rfl
    exact ⟨hunch ▸ h5, fun hd => absurd hd hf, fun _ => hunch⟩

/-- C8 (witness): from a full 5-entry example list, a new description
correction keeps the list at 5 entries. -/
theorem description_examples_bound_witness :
    ((⟨"", ["a", "b", "c", "d", "e"], "", "", ""⟩ :
        UserPreferences).description_examples.length ≤ 5)
    ∧ (update_fine_tuning_preferences "description" "" "f"
        ⟨"", ["a", "b", "c", "d", "e"], "", "", ""⟩).description_examples.length ≤ 5 :=
  ⟨by decide,
   (description_examples_bound ⟨"", ["a", "b", "c", "d", "e"], "", "", ""⟩
     "description" "" "f" (by decide)).1⟩

/-! Claim C9. -/

/-- C9: a volume/issue correction sets `volume_format` to the
"Volume X, Issue Y" convention when the corrected value contains both
`Volume` and `Issue`, else to the "Vol. X, No. Y" convention when it
contains both `Vol.` and `No.`, and otherwise leaves it unchanged; the
concrete two-step scenario sets the "Vol. X, No. Y" convention and then
overwrites it with the "Volume X, Issue Y" convention. -/
theorem volume_format_rules :
    (∀ (p : UserPreferences) (o c : String),
      (update_fine_tuning_preferences "volume_issue" o c p).volume_format =
        (if containsSeq "Volume" c && containsSeq "Issue" c then
          "Use \x27Volume X, Issue Y\x27 format"
         else if containsSeq "Vol." c && containsSeq "No." c then
          "Use \x27Vol. X, No. Y\x27 format"
         else p.volume_format))
    ∧ (update_fine_tuning_preferences "volume_issue" "" "Vol. 3, No. 4"
        defaultPreferences).volume_format = "Use \x27Vol. X, No. Y\x27 format"
    ∧ (update_fine_tuning_preferences "volume_issue" "" "Volume 3, Issue 4"
        (update_fine_tuning_preferences "volume_issue" "" "Vol. 3, No. 4"
          defaultPreferences)).volume_format =
      "Use \x27Volume X, Issue Y\x27 format" := by
  refine ⟨?_, by decide, by decide⟩
  intro p o c
  unfold update_fine_tuning_preferences
  rw [if_neg (by decide : ¬("volume_issue" : String) = "description"),
      if_neg (by decide : ¬("volume_issue" : String) = "title"),
      if_pos rfl]
  by_cases h1 : (containsSeq "Volume" c && containsSeq "Issue" c) = true
  · simp [h1]
  · by_cases h2 : (containsSeq "Vol." c && containsSeq "No." c) = true
    · simp [h1, h2]
    · simp [h1, h2]

/-! Segmenter lemmas, towards claims C2 and C10. -/

theorem mem_collapseAux (l : List Char) :
    ∀ (b : Bool) (c : Char), c ∈ collapseAux b l →
      c = ' ' ∨ pyIsSpace c = false := by
  induction l with
  | nil =>
    intro b c h
    simp [collapseAux] at h
  | cons d rest ih =>
    intro b c h
    simp only [collapseAux] at h
    by_cases hd : pyIsSpace d = true
    · rw [if_pos hd] at h
      cases b with
      | true => exact ih true c h
      | false =>
        rcases List.mem_cons.mp h with h | h
        · exact Or.inl h
        · exact ih true c h
    · rw [if_neg hd] at h
      rcases List.mem_cons.mp h with h | h
      · subst h
        exact Or.inr (Bool.eq_false_iff.mpr hd)
      · exact ih false c h

theorem newline_not_mem_cleanedText (s : String) : '\n' ∉ cleanedText s := by
  intro h
  unfold cleanedText removeArtifacts at h
  have h2 := List.mem_of_mem_filter h
  unfold collapseWs at h2
  rcases mem_collapseAux _ _ _ h2 with h3 | h3
  · exact absurd h3 (by decide)
  · exact absurd h3 (by decide)

theorem splitNNAux_no_newline (l : List Char) :
    ∀ (acc : List Char), '\n' ∉ l → splitNNAux acc l = [acc.reverse ++ l] := by
  induction l with
  | nil =>
    intro acc _
    simp [splitNNAux]
  | cons c1 tail ih =>
    intro acc hnl
    cases tail with
    | nil => simp [splitNNAux]
    | cons c2 rest =>
      have hc1 : (c1 == '\n') = false := by
        rw [beq_eq_false_iff_ne]
        intro h
        exact hnl (by rw [h]; exact List.mem_cons_self _ _)
      simp only [splitNNAux, hc1, Bool.false_and, Bool.false_eq_true, if_false]
      rw [ih (c1 :: acc) (fun h => hnl (List.mem_cons_of_mem _ h))]
      simp [List.reverse_cons, List.append_assoc]

theorem splitNN_no_newline (l : List Char) (h : '\n' ∉ l) :
    splitNN l = [l] := by
  unfold splitNN
  rw [splitNNAux_no_newline l [] h]
  simp

theorem splitPunctAux_pieces (l : List Char) :
    (∀ f, f ∈ splitPunctAux none l → f <:+: l) ∧
    (∀ acc f, f ∈ splitPunctAux (some acc) l → f <:+: acc.reverse ++ l) := by
  induction l with
  | nil =>
    constructor
    · intro f hf
      simp only [splitPunctAux, List.mem_singleton] at hf
      subst hf
      exact List.nil_infix
    · intro acc f hf
      simp only [splitPunctAux, List.mem_singleton] at hf
      subst hf
      exact (List.prefix_append _ _).isInfix
  | cons c rest ih =>
    constructor
    · intro f hf
      simp only [splitPunctAux] at hf
      by_cases hc : isSentencePunct c = true
      · rw [if_pos hc] at hf
        exact (ih.1 f hf).trans (List.suffix_cons c rest).isInfix
      · rw [if_neg hc] at hf
        have h := ih.2 [c] f hf
        simpa using h
    · intro acc f hf
      simp only [splitPunctAux] at hf
      by_cases hc : isSentencePunct c = true
      · rw [if_pos hc] at hf
        rcases List.mem_cons.mp hf with h | h
        · subst h
          exact (List.prefix_append _ _).isInfix
        · exact (ih.1 f h).trans
            ((List.suffix_cons c rest).trans (List.suffix_append _ _)).isInfix
      · rw [if_neg hc] at hf
        have h := ih.2 (c :: acc) f hf
        rw [List.reverse_cons, List.append_assoc, List.singleton_append] at h
        exact h

theorem splitPunct_piece (f l : List Char) (h : f ∈ splitPunct l) :
    f <:+: l := by
  have h2 := (splitPunctAux_pieces l).2 [] f h
  simpa using h2

theorem stripChars_within (l : List Char) : stripChars l <:+: l := by
  have h0 : (l.dropWhile pyIsSpace).reverse.dropWhile pyIsSpace <:+
      (l.dropWhile pyIsSpace).reverse := List.dropWhile_suffix pyIsSpace
  have h1 := List.reverse_prefix.mpr h0
  rw [List.reverse_reverse] at h1
  exact h1.isInfix.trans (List.dropWhile_suffix pyIsSpace).isInfix

theorem stripChars_decomp (l : List Char) :
    l = l.takeWhile pyIsSpace ++
        (stripChars l ++
          ((l.dropWhile pyIsSpace).reverse.takeWhile pyIsSpace).reverse) := by
  have hd : l.dropWhile pyIsSpace =
      stripChars l ++
        ((l.dropWhile pyIsSpace).reverse.takeWhile pyIsSpace).reverse := by
    conv_lhs =>
      rw [← List.reverse_reverse (l.dropWhile pyIsSpace),
        ← List.takeWhile_append_dropWhile (p := pyIsSpace)
          (l := (l.dropWhile pyIsSpace).reverse)]
    rw [List.reverse_append]
    rfl
  conv_lhs => rw [← List.takeWhile_append_dropWhile (p := pyIsSpace) (l := l), hd]

theorem head?_dropWhile_false {α : Type} (p : α → Bool) (m : List α) (c : α)
    (h : (m.dropWhile p).head? = some c) : p c = false := by
  have hw := List.head?_dropWhile_not p m
  rw [h] at hw
  exact hw

theorem suffix_getLast? {α : Type} {s t : List α} (h : s <:+ t) (hs : s ≠ []) :
    s.getLast? = t.getLast? := by
  obtain ⟨u, rfl⟩ := h
  rw [List.getLast?_append]
  cases hl : s.getLast? with
  | none => exact absurd (List.getLast?_eq_none_iff.mp hl) hs
  | some x => rfl

theorem stripChars_getLast?_not_space (l : List Char) (c : Char)
    (h : (stripChars l).getLast? = some c) : pyIsSpace c = false := by
  unfold stripChars at h
  rw [List.getLast?_reverse] at h
  exact head?_dropWhile_false pyIsSpace _ c h

theorem stripChars_head?_not_space (l : List Char) (c : Char)
    (h : (stripChars l).head? = some c) : pyIsSpace c = false := by
  unfold stripChars at h
  rw [List.head?_reverse] at h
  have hne : (l.dropWhile pyIsSpace).reverse.dropWhile pyIsSpace ≠ [] := by
    intro hnil
    rw [hnil] at h
    exact Option.noConfusion h
  rw [suffix_getLast? (List.dropWhile_suffix pyIsSpace) hne,
    List.getLast?_reverse] at h
  exact head?_dropWhile_false pyIsSpace _ c h

theorem infix_trim_left :
    ∀ (a x f : List Char), (∀ c ∈ a, pyIsSpace c = true) → f <:+: a ++ x →
      (∀ c, f.head? = some c → pyIsSpace c = false) → f <:+: x := by
  intro a
  induction a with
  | nil =>
    intro x f _ h _
    simpa using h
  | cons b a' ih =>
    intro x f hsp h hhead
    obtain ⟨s, t, hst⟩ := h
    cases s with
    | nil =>
      cases f with
      | nil => exact List.nil_infix
      | cons c0 f' =>
        have hc0 : c0 = b := by
          have := congrArg List.head? hst
          simpa using this
        have hb := hsp b (List.mem_cons_self _ _)
        have := hhead c0 rfl
        rw [hc0, hb] at this
        exact Bool.noConfusion this
    | cons b' s' =>
      have htail : s' ++ f ++ t = a' ++ x := by
        have := congrArg List.tail hst
        simpa using this
      exact ih x f (fun c hc => hsp c (List.mem_cons_of_mem _ hc))
        ⟨s', t, htail⟩ hhead

theorem infix_trim_right (x b f : List Char)
    (hsp : ∀ c ∈ b, pyIsSpace c = true) (h : f <:+: x ++ b)
    (hlast : ∀ c, f.getLast? = some c → pyIsSpace c = false) : f <:+: x := by
  have h' : f.reverse <:+: b.reverse ++ x.reverse := by
    have h2 := List.reverse_infix.mpr h
    rwa [List.reverse_append] at h2
  have h3 := infix_trim_left b.reverse x.reverse f.reverse
    (fun c hc => hsp c (List.mem_reverse.mp hc)) h'
    (fun c hc => hlast c (by rwa [List.head?_reverse] at hc))
  have h4 := List.reverse_infix.mpr h3
  rwa [List.reverse_reverse, List.reverse_reverse] at h4

theorem stripChars_length_le_of_within (t3 f : List Char) (hf : f <:+: t3) :
    (stripChars f).length ≤ (stripChars t3).length := by
  cases hg : stripChars f with
  | nil => simp
  | cons c0 g' =>
    have hginf : stripChars f <:+: t3 := (stripChars_within f).trans hf
    have hhead : ∀ c, (stripChars f).head? = some c → pyIsSpace c = false :=
      fun c hc => stripChars_head?_not_space f c hc
    have hlast : ∀ c, (stripChars f).getLast? = some c → pyIsSpace c = false :=
      fun c hc => stripChars_getLast?_not_space f c hc
    have hdec := stripChars_decomp t3
    rw [hdec] at hginf
    have h1 := infix_trim_left _ _ _
      (fun c hc => List.mem_takeWhile_imp hc) hginf hhead
    have h2 := infix_trim_right _ _ _
      (fun c hc => List.mem_takeWhile_imp (List.mem_reverse.mp hc)) h1 hlast
    rw [← hg]
    exact h2.length_le

theorem paraSegments_eq (s : String) :
    paraSegments s =
      List.filter (fun q => decide (20 < q.length))
        [stripChars (cleanedText s)] := by
  unfold paraSegments
  rw [splitNN_no_newline _ (newline_not_mem_cleanedText s)]
  rfl

theorem segment_core_length_le_one (s : String) :
    (segment_core s).length ≤ 1 := by
  unfold segment_core
  by_cases he : (paraSegments s).isEmpty = true
  · rw [if_pos he]
    have hcore : ¬(20 < (stripChars (cleanedText s)).length) := by
      intro h20
      rw [paraSegments_eq] at he
      simp [List.filter, h20] at he
    have hempty : sentenceSegments s = [] := by
      rw [List.eq_nil_iff_forall_not_mem]
      intro q hq
      unfold sentenceSegments at hq
      rw [List.mem_filter] at hq
      obtain ⟨hq1, hq2⟩ := hq
      rw [List.mem_map] at hq1
      obtain ⟨f, hf, rfl⟩ := hq1
      have hinfix := splitPunct_piece f _ hf
      have hle := stripChars_length_le_of_within _ f hinfix
      have h20 := of_decide_eq_true hq2
      omega
    rw [hempty]
    simp
  · rw [if_neg he]
    rw [paraSegments_eq]
    exact le_trans (List.length_filter_le _ _) (by simp)

/-! Claim C10. -/

/-- C10: on the non-exception path the segmenter output has at most one
element (the paragraph split always produces the whole cleaned text as the
single candidate, and when it fails the length filter no sentence fragment
can survive either), so the `[:10]` cap never truncates anything. -/
theorem segment_singleton_no_truncation (s : String) :
    (segment_core s).length ≤ 1
    ∧ clean_and_segment s = (segment_core s).map (fun q => (⟨q⟩ : String)) := by
  refine ⟨segment_core_length_le_one s, ?_⟩
  unfold clean_and_segment
  rw [List.take_of_length_le (le_trans (segment_core_length_le_one s) (by omega))]

/-! Claim C2. -/

/-- C2: the segmenter output has at most 10 elements, each strictly longer
than 20 characters; the exception-fallback output is a single-element list
whose element has at most 1000 characters. -/
theorem segment_output_bounds (s : String) :
    ((clean_and_segment s).length ≤ 10
      ∧ ∀ x ∈ clean_and_segment s, 20 < x.length)
    ∧ ((segment_fallback s).length = 1
      ∧ ∀ x ∈ segment_fallback s, x.length ≤ 1000) := by
  refine ⟨⟨?_, ?_⟩, rfl, ?_⟩
  · unfold clean_and_segment
    rw [List.length_map]
    exact List.length_take_le 10 _
  · intro x hx
    unfold clean_and_segment at hx
    rw [List.mem_map] at hx
    obtain ⟨q, hq, rfl⟩ := hx
    have hq' := List.mem_of_mem_take hq
    have hpred : decide (20 < q.length) = true := by
      unfold segment_core at hq'
      split at hq'
      · unfold sentenceSegments at hq'
        exact (List.mem_filter.mp hq').2
      · unfold paraSegments at hq'
        exact (List.mem_filter.mp hq').2
    exact of_decide_eq_true hpred
  · intro x hx
    unfold segment_fallback at hx
    rw [List.mem_singleton] at hx
    subst hx
    show (s.data.take 1000).length ≤ 1000
    exact List.length_take_le 1000 _

/-- C2 (witness): a 26-letter input passes through as a single segment, and
the membership hypotheses of `segment_output_bounds` hold at it. -/
theorem segment_output_bounds_witness :
    (("abcdefghijklmnopqrstuvwxyz" : String) ∈
        clean_and_segment "abcdefghijklmnopqrstuvwxyz"
      ∧ 20 < ("abcdefghijklmnopqrstuvwxyz" : String).length)
    ∧ (("abcdefghijklmnopqrstuvwxyz" : String) ∈
        segment_fallback "abcdefghijklmnopqrstuvwxyz"
      ∧ ("abcdefghijklmnopqrstuvwxyz" : String).length ≤ 1000) :=
  ⟨⟨by decide,
    (segment_output_bounds "abcdefghijklmnopqrstuvwxyz").1.2 _ (by decide)⟩,
   ⟨by decide,
    (segment_output_bounds "abcdefghijklmnopqrstuvwxyz").2.2 _ (by decide)⟩⟩

end OcrPipeline
